import Mathlib

/-
Verification of the `mcp_chat` Django application (pykyalo/django-mcp-assistant).

The development shallowly embeds the parts of the code that the claims are
about:

* `src/mcp_chat/mcp_client.py` — the `MCPClient` conversation loop
  (`send_message`), tool routing (`handle_tool_call`), and the tool/resource
  aggregation helpers (`get_all_tools`, `get_all_resources`).
* `src/mcp_chat/mcp_servers.py` — the `VoIPDocsServer` logic: the PDF text
  extraction fallback chain (`_extract_pdf_text`), the document keyword search
  (`_search_docs`) and the canned SIP examples (`_get_sip_example`).
* `src/mcp_chat/models.py` — the two tables and their default `Meta.ordering`.
* `src/mcp_chat/views.py` — the `send_message` view.

Python strings are modelled as Lean `String`s, with the Python string
operations re-implemented by structural recursion on the character list
(`String.data`) so that every definition evaluates by kernel reduction.
Python dicts that the code builds and serializes are modelled by a small JSON
value type, with insertion-ordered fields.  Network and filesystem effects
(the Anthropic API, the documentation directory, the PDF extraction
libraries) are inputs of the embedded functions: the model API is an oracle
producing a `Response` from the message transcript, a documentation file is a
name/content pair, and a PDF extractor is represented by the text it yields.
-/

namespace McpChat

/-! ### Python string primitives

Re-implementations of the Python string operations used by the code, by
structural recursion over `String.data`.  `Char.toLower` only lowers ASCII
letters, whereas Python `str.lower` is Unicode-aware; the documentation and
queries the code handles are ASCII, and no claim depends on the difference.
-/

/-- Python `s.lower()` (ASCII). -/
def pyLower (s : String) : String := String.mk (s.data.map Char.toLower)

/-- Split a character list on a separator character; mirrors Python
`str.split(sep)` for a one-character separator (`"".split(sep) == [""]`). -/
def charsSplit (sep : Char) : List Char → List (List Char)
  | [] => [[]]
  | c :: rest =>
    let r := charsSplit sep rest
    if c = sep then [] :: r
    else
      match r with
      | [] => [[c]]
      | l :: ls => (c :: l) :: ls

/-- Python `content.split("\n")`. -/
def pySplitLines (s : String) : List String := (charsSplit '\n' s.data).map String.mk

/-- Substring test on character lists: Python `needle in haystack`. -/
def charsInfixOf (needle : List Char) : List Char → Bool
  | [] => needle.isEmpty
  | c :: t => needle.isPrefixOf (c :: t) || charsInfixOf needle t

/-- Python `needle in haystack` on strings. -/
def pyIn (needle haystack : String) : Bool := charsInfixOf needle.data haystack.data

/-- Python `s.strip()`: drop whitespace from both ends.  (Python also strips
some Unicode space characters that `Char.isWhitespace` does not cover; no
claim depends on those.) -/
def pyStrip (s : String) : String :=
  String.mk (((s.data.dropWhile Char.isWhitespace).reverse.dropWhile Char.isWhitespace).reverse)

/-- Python `s.startswith(pre)`. -/
def pyStartsWith (s pre : String) : Bool := pre.data.isPrefixOf s.data

/-! ### JSON values

The Python dicts/lists/strings that the code builds, routes and serializes.
Object fields keep insertion order, as Python dicts do. -/

inductive Json where
  | null
  | bool (b : Bool)
  | num (n : Int)
  | str (s : String)
  | arr (items : List Json)
  | obj (fields : List (String × Json))

/-- Escape one character for a JSON string literal.  (CPython additionally
escapes other control characters and non-ASCII codepoints; the values the
application serializes contain none.) -/
def jsonEscapeChar (c : Char) : List Char :=
  if c = '"' then ['\\', '"']
  else if c = '\\' then ['\\', '\\']
  else if c = '\n' then ['\\', 'n']
  else if c = '\t' then ['\\', 't']
  else if c = '\r' then ['\\', 'r']
  else [c]

/-- Escape a string for a JSON string literal. -/
def jsonEscape (s : String) : String := String.mk (s.data.flatMap jsonEscapeChar)

/-- Two-space indentation prefix at a nesting level: `json.dumps(_, indent=2)`
indents each level by two spaces. -/
def jsonIndent (level : Nat) : String := String.mk (List.replicate (2 * level) ' ')

mutual

/-- Model of Python `json.dumps(v, indent=2)` at a nesting level. -/
def dumpsVal (level : Nat) : Json → String
  | Json.null => "null"
  | Json.bool true => "true"
  | Json.bool false => "false"
  | Json.num n => toString n
  | Json.str s => "\"" ++ jsonEscape s ++ "\""
  | Json.arr [] => "[]"
  | Json.arr (x :: xs) =>
    "[\n" ++ jsonIndent (level + 1) ++ dumpsVal (level + 1) x
      ++ dumpsItems (level + 1) xs ++ "\n" ++ jsonIndent level ++ "]"
  | Json.obj [] => "\x7b\x7d"
  | Json.obj (f :: fs) =>
    "\x7b\n" ++ jsonIndent (level + 1) ++ "\"" ++ jsonEscape f.1 ++ "\": "
      ++ dumpsVal (level + 1) f.2 ++ dumpsFields (level + 1) fs
      ++ "\n" ++ jsonIndent level ++ "\x7d"

/-- Remaining array items, each on its own indented line. -/
def dumpsItems (level : Nat) : List Json → String
  | [] => ""
  | x :: xs => ",\n" ++ jsonIndent level ++ dumpsVal level x ++ dumpsItems level xs

/-- Remaining object fields, each on its own indented line. -/
def dumpsFields (level : Nat) : List (String × Json) → String
  | [] => ""
  | f :: fs =>
    ",\n" ++ jsonIndent level ++ "\"" ++ jsonEscape f.1 ++ "\": "
      ++ dumpsVal level f.2 ++ dumpsFields level fs

end

/-- `json.dumps(result, indent=2)` as called at `mcp_client.py:226`. -/
def dumps (v : Json) : String := dumpsVal 0 v

/-! ### `VoIPDocsServer._extract_pdf_text`  (mcp_servers.py:280-361)

Each extraction method (`_extract_with_pdftotext`, `_extract_pdf_with_pypdf`,
`_extract_pdf_with_pdfplumber`) returns a pair `(text, success)`; on every
path of all three methods `success` is `len(text) > 500` (their exception
paths return `("", False)` and `0 > 500` is false), so a method is modelled
by the text it yields, with success recomputed.  Validation and ghostscript
repair touch the filesystem and are modelled by their boolean outcomes. -/

/-- Stable "longest first" choice: Python
`all_results.sort(key=lambda x: len(x[0]), reverse=True)` followed by
`all_results[0]` — the earliest element of maximal text length
(`list.sort` is stable). -/
def bestResult : List (String × String) → String × String
  | [] => ("", "")
  | [x] => x
  | x :: y :: rest =>
    let b := bestResult (y :: rest)
    if x.1.length < b.1.length then b else x

/-- The constant error text returned when every method yields an empty
result (mcp_servers.py:345-358).  Its `pdftotext` line always renders
"Not installed": this branch is only reached when `pdftotext_success` is
false. -/
def errorAllFailedMsg : String :=
  "Error: Could not extract text from PDF using any method.\n\n"
    ++ "                    Tried:\n"
    ++ "                    - pdftotext (command-line): Not installed\n"
    ++ "                    - pypdf library: Failed\n"
    ++ "                    - pdfplumber library: Failed\n\n"
    ++ "                    Suggestions:\n"
    ++ "                    1. Check if PDF is encrypted/password-protected\n"
    ++ "                    2. Try opening the PDF in a viewer to verify it's not corrupted\n"
    ++ "                    3. Install poppler for pdftotext: brew install poppler\n"
    ++ "                    4. Install ghostscript for PDF repair: brew install ghostscript\n"
    ++ "                    5. Try re-downloading the PDF if it's corrupted\n"
    ++ "            "

/-- `VoIPDocsServer._extract_pdf_text`.  `valid`/`validationMsg` are the
result of `_validate_pdf`, `repairOk` the outcome of `_try_repair_pdf`, and
`t1 t2 t3` the texts produced by pdftotext, pypdf and pdfplumber on the
(possibly repaired) file. -/
def extractPdfText (valid : Bool) (validationMsg : String) (repairOk : Bool)
    (t1 t2 t3 : String) : String :=
  if !valid && !repairOk then
    "Error: " ++ validationMsg ++ ". PDF repair also failed."
  else if 500 < t1.length then t1
  else if 500 < t2.length then t2
  else if 500 < t3.length then t3
  else
    let best := bestResult [(t1, "pdftotext"), (t2, "pypdf"), (t3, "pdfplumber")]
    if 0 < best.1.length then best.1 else errorAllFailedMsg

/-! ### `VoIPDocsServer._get_sip_example`  (mcp_servers.py:595-657) -/

/-- First-match association-list lookup: Python `dict` lookup / `dict.get`
(dict keys are unique, so first match is the match). -/
def dictGet {α : Type} : List (String × α) → String → Option α
  | [], _ => none
  | p :: rest, k => if k = p.1 then some p.2 else dictGet rest k

def inviteExample : String :=
  "INVITE sip:bob@biloxi.com SIP/2.0\n            Via: SIP/2.0/UDP pc33.atlanta.com;branch=z9hG4bKnashds8\n            Max-Forwards: 70\n            To: Bob <sip:bob@biloxi.com>\n            From: Alice <sip:alice@atlanta.com>;tag=1928301774\n            Call-ID: a84b4c76e66710@pc33.atlanta.com\n            CSeq: 314159 INVITE\n            Contact: <sip:alice@pc33.atlanta.com>\n            Content-Type: application/sdp\n            Content-Length: 142\n\n            (SDP content here)"

def registerExample : String :=
  "REGISTER sip:registrar.biloxi.com SIP/2.0\n            Via: SIP/2.0/UDP bobspc.biloxi.com:5060;branch=z9hG4bKnashds7\n            Max-Forwards: 70\n            To: Bob <sip:bob@biloxi.com>\n            From: Bob <sip:bob@biloxi.com>;tag=456248\n            Call-ID: 843817637684230@998sdasdh09\n            CSeq: 1826 REGISTER\n            Contact: <sip:bob@192.0.2.4>\n            Expires: 7200\n            Content-Length: 0"

def byeExample : String :=
  "BYE sip:alice@pc33.atlanta.com SIP/2.0\n            Via: SIP/2.0/UDP 192.0.2.4;branch=z9hG4bKnashds10\n            Max-Forwards: 70\n            From: Bob <sip:bob@biloxi.com>;tag=a6c85cf\n            To: Alice <sip:alice@atlanta.com>;tag=1928301774\n            Call-ID: a84b4c76e66710\n            CSeq: 231 BYE\n            Content-Length: 0"

def ackExample : String :=
  "ACK sip:bob@192.0.2.4 SIP/2.0\n            Via: SIP/2.0/UDP pc33.atlanta.com;branch=z9hG4bKnashds9\n            Max-Forwards: 70\n            To: Bob <sip:bob@biloxi.com>;tag=a6c85cf\n            From: Alice <sip:alice@atlanta.com>;tag=1928301774\n            Call-ID: a84b4c76e66710@pc33.atlanta.com\n            CSeq: 314159 ACK\n            Content-Length: 0"

def cancelExample : String :=
  "CANCEL sip:bob@biloxi.com SIP/2.0\n            Via: SIP/2.0/UDP pc33.atlanta.com;branch=z9hG4bKnashds8\n            Max-Forwards: 70\n            To: Bob <sip:bob@biloxi.com>\n            From: Alice <sip:alice@atlanta.com>;tag=1928301774\n            Call-ID: a84b4c76e66710@pc33.atlanta.com\n            CSeq: 314159 CANCEL\n            Content-Length: 0"

def optionsExample : String :=
  "OPTIONS sip:bob@biloxi.com SIP/2.0\n            Via: SIP/2.0/UDP pc33.atlanta.com;branch=z9hG4bKnashds11\n            Max-Forwards: 70\n            To: <sip:bob@biloxi.com>\n            From: Alice <sip:alice@atlanta.com>;tag=1928301774\n            Call-ID: a84b4c76e66710\n            CSeq: 63104 OPTIONS\n            Contact: <sip:alice@pc33.atlanta.com>\n            Accept: application/sdp\n            Content-Length: 0"

/-- The `examples` dict of `_get_sip_example`, in source order. -/
def sipExamples : List (String × String) :=
  [("INVITE", inviteExample), ("REGISTER", registerExample), ("BYE", byeExample),
   ("ACK", ackExample), ("CANCEL", cancelExample), ("OPTIONS", optionsExample)]

/-- `VoIPDocsServer._get_sip_example`:
`examples.get(message_type, f"No example available for {message_type}")`. -/
def getSipExample (message_type : String) : String :=
  match dictGet sipExamples message_type with
  | some ex => ex
  | none => "No example available for " ++ message_type

/-! ### Tool and resource aggregation  (mcp_client.py:54-97)

`MCPClient.servers` is a dict from server name to server.  A server is
modelled by its declared tools, its resource listing and its `call_tool`
method (an async one-shot call, modelled as a pure function from tool name
and arguments to the returned value). -/

structure ToolSpec where
  name : String
  description : String
  inputSchema : Json

structure Resource where
  uri : String
  name : String
  description : String
  mimeType : String

structure ServerModel where
  tools : List ToolSpec
  resources : List Resource
  callTool : String → Json → Json

/-- A tool dict after `get_all_tools` added the `"_server"` metadata key. -/
structure Tool where
  name : String
  description : String
  inputSchema : Json
  server : String

/-- `MCPClient.get_all_tools`: aggregate every server's tools, tagging each
with its owning server (mcp_client.py:54-65). -/
def getAllTools (servers : List (String × ServerModel)) : List Tool :=
  servers.foldl (fun acc p =>
    p.2.tools.foldl (fun acc2 t => acc2 ++ [⟨t.name, t.description, t.inputSchema, p.1⟩]) acc) []

/-- A resource dict after `get_all_resources` added the `"_server"` key. -/
structure TaggedResource where
  resource : Resource
  server : String

/-- The filter of `get_all_resources` (mcp_client.py:90-92):
`"freeswitch" in resource_name or "sip" in resource_name` on the lowercased
`resource.get("name", "")`. -/
def resourceNameMatches (r : Resource) : Bool :=
  pyIn "freeswitch" (pyLower r.name) || pyIn "sip" (pyLower r.name)

/-- `MCPClient.get_all_resources` (mcp_client.py:81-97): aggregate every
server's resources, keeping only those whose name matches the
FreeSWITCH/SIP filter, each tagged with its owning server. -/
def getAllResources (servers : List (String × ServerModel)) : List TaggedResource :=
  servers.foldl (fun acc p =>
    p.2.resources.foldl (fun acc2 r =>
      if resourceNameMatches r then acc2 ++ [⟨r, p.1⟩] else acc2) acc) []

/-! ### Tool routing and the conversation loop  (mcp_client.py:99-249) -/

/-- `MCPClient.handle_tool_call` (mcp_client.py:99-116): route to the named
server, or report an unknown server. -/
def handleToolCall (servers : List (String × ServerModel)) (tool_name : String)
    (tool_input : Json) (server_name : String) : Json :=
  match dictGet servers server_name with
  | none => Json.obj [("error", Json.str ("Unknown server: " ++ server_name))]
  | some srv => srv.callTool tool_name tool_input

/-- The result dict recorded when no tool definition matches
(mcp_client.py:209). -/
def toolNotFoundError (tool_name : String) : Json :=
  Json.obj [("error", Json.str ("Tool " ++ tool_name ++ " not found"))]

/-- The linear scan of mcp_client.py:202-206: first tool definition whose
name equals the requested name, yielding its `"_server"` tag. -/
def findServerName : List Tool → String → Option String
  | [], _ => none
  | t :: rest, n => if t.name = n then some t.server else findServerName rest n

/-- One tool_use block's result (mcp_client.py:201-214): scan for the owning
server; `if not server_name` (no match, or a falsy empty name) records the
not-found error, otherwise the call is routed through `handle_tool_call`. -/
def routeToolCall (tools : List Tool) (servers : List (String × ServerModel))
    (tool_name : String) (tool_input : Json) : Json :=
  match findServerName tools tool_name with
  | none => toolNotFoundError tool_name
  | some s => if s = "" then toolNotFoundError tool_name
              else handleToolCall servers tool_name tool_input s

/-- A content block of a model response.  Text blocks have a `text`
attribute; `tool_use` blocks have `id`, `name` and `input`. -/
inductive ContentBlock where
  | text (text : String)
  | toolUse (id : String) (name : String) (input : Json)

/-- A model API response: the stop reason and the content blocks. -/
structure Response where
  stop_reason : String
  content : List ContentBlock

/-- One entry of the `tool_results` list sent back to the model
(mcp_client.py:222-228). -/
structure ToolResult where
  type : String
  tool_use_id : String
  content : String

/-- The `content` of a transcript message: the initial user string, an
assistant response's block list, or a user message carrying tool results. -/
inductive MsgContent where
  | ofString (s : String)
  | ofBlocks (blocks : List ContentBlock)
  | ofToolResults (results : List ToolResult)

/-- One message of the conversation transcript. -/
structure ChatMessage where
  role : String
  content : MsgContent

/-- One entry of `tool_calls_made` (mcp_client.py:217-219); the source spells
the tool-name key `"tools"`. -/
structure ToolCall where
  tools : String
  input : Json
  result : Json

/-- The dict `send_message` returns on the non-`tool_use` path
(mcp_client.py:245-249). -/
structure SendResult where
  response : String
  tool_calls : List ToolCall
  conversation : List ChatMessage

/-- The per-block loop of mcp_client.py:195-228: for each `tool_use` block in
order, route the call, record it in `tool_calls_made`, and build the
`tool_result` entry whose content is the `json.dumps` of the result. -/
def processBlocks (tools : List Tool) (servers : List (String × ServerModel)) :
    List ContentBlock → List ToolCall × List ToolResult
  | [] => ([], [])
  | ContentBlock.text _ :: rest => processBlocks tools servers rest
  | ContentBlock.toolUse id name input :: rest =>
    let result := routeToolCall tools servers name input
    let r := processBlocks tools servers rest
    (⟨name, input, result⟩ :: r.1, ⟨"tool_result", id, dumps result⟩ :: r.2)

/-- Final response extraction (mcp_client.py:240-243): concatenate the `text`
of every block that has one. -/
def finalText : List ContentBlock → String
  | [] => ""
  | ContentBlock.text s :: rest => s ++ finalText rest
  | ContentBlock.toolUse _ _ _ :: rest => finalText rest

/-- `max_iterations = 5` (mcp_client.py:168). -/
def maxIterations : Nat := 5

/-- The `while iteration < max_iterations` loop of mcp_client.py:171-249,
recursing on the remaining iteration budget.  The second component counts
the model API calls made.  When the budget is exhausted the Python function
falls off the loop and implicitly returns `None`, modelled by `none`. -/
def sendMessageLoop (model : List ChatMessage → Response) (tools : List Tool)
    (servers : List (String × ServerModel)) :
    Nat → List ChatMessage → List ToolCall → Option SendResult × Nat
  | 0, _, _ => (none, 0)
  | remaining + 1, messages, tool_calls_made =>
    let response := model messages
    let messages1 := messages ++ [ChatMessage.mk "assistant" (MsgContent.ofBlocks response.content)]
    if response.stop_reason = "tool_use" then
      let pr := processBlocks tools servers response.content
      let messages2 := messages1 ++ [ChatMessage.mk "user" (MsgContent.ofToolResults pr.2)]
      let step := sendMessageLoop model tools servers remaining messages2 (tool_calls_made ++ pr.1)
      (step.1, step.2 + 1)
    else
      (some ⟨finalText response.content, tool_calls_made, messages1⟩, 1)

/-- `MCPClient.send_message` (mcp_client.py:118-249) with its model API call
count.  The model API is an oracle from the message transcript to a
response; the system prompt and the cleaned tool list are constant through
the loop and are absorbed into the oracle. -/
def sendMessageAux (model : List ChatMessage → Response)
    (servers : List (String × ServerModel)) (user_message : String)
    (conversation_history : List ChatMessage) : Option SendResult × Nat :=
  let messages := conversation_history ++ [ChatMessage.mk "user" (MsgContent.ofString user_message)]
  let tools := getAllTools servers
  sendMessageLoop model tools servers maxIterations messages []

/-- `MCPClient.send_message`: what the Python coroutine returns. -/
def sendMessage (model : List ChatMessage → Response)
    (servers : List (String × ServerModel)) (user_message : String)
    (conversation_history : List ChatMessage) : Option SendResult :=
  (sendMessageAux model servers user_message conversation_history).1

/-! ### `VoIPDocsServer._search_docs`  (mcp_servers.py:461-554)

A text file is a name/content pair (files whose read raises are skipped by
the `except` and are not modelled).  A PDF file is modelled by its name and
the string `_extract_pdf_text` produced for it. -/

structure TxtFile where
  name : String
  content : String

structure PdfFile where
  name : String
  extracted : String

/-- One result entry (mcp_servers.py:495-501): the file name, the `"type"`
key, and the context excerpts (the dict key is `"matches"`; `matches` is a
Lean keyword, hence the field name `excerpts`). -/
structure FileEntry where
  file : String
  type : String
  excerpts : List String
  deriving DecidableEq

/-- What `_search_docs` returns: the missing-directory dict
(mcp_servers.py:469-473) or the normal result dict (mcp_servers.py:550-554). -/
inductive SearchOutcome where
  | missing (message : String)
  | found (results : List FileEntry) (query : String) (total_found : Nat)
  deriving DecidableEq

/-- Context excerpt around line `i` (mcp_servers.py:486-488):
`"\n".join(lines[max(0, i-2) : min(len(lines), i+3)])`. -/
def contextAround (lines : List String) (i : Nat) : String :=
  String.intercalate "\n" ((lines.drop (i - 2)).take (min lines.length (i + 3) - (i - 2)))

/-- The per-line match loop (mcp_servers.py:484-492): append a context
excerpt for each line containing the lowercased query, breaking once
`max_results` matches are collected. -/
def searchLinesAux (ql : String) (allLines : List String) (max_results : Nat) :
    List String → Nat → List String → List String
  | [], _, acc => acc
  | line :: rest, i, acc =>
    if pyIn ql (pyLower line) then
      let acc2 := acc ++ [contextAround allLines i]
      if max_results ≤ acc2.length then acc2
      else searchLinesAux ql allLines max_results rest (i + 1) acc2
    else searchLinesAux ql allLines max_results rest (i + 1) acc

/-- All context excerpts collected for one file's lines. -/
def searchLines (ql : String) (lines : List String) (max_results : Nat) : List String :=
  searchLinesAux ql lines max_results lines 0 []

/-- `VoIPDocsServer._search_docs`.  `dirExists` and `docsDir` model
`self.docs_dir`; text files are scanned first, then PDFs (whose extraction
error strings are skipped), and the final dict truncates `results` to
`max_results` while `total_found` counts all matching files. -/
def searchDocs (dirExists : Bool) (docsDir : String) (txtFiles : List TxtFile)
    (pdfFiles : List PdfFile) (query : String) (max_results : Nat) : SearchOutcome :=
  if !dirExists then
    SearchOutcome.missing ("Documentation directory not found: " ++ docsDir)
  else
    let ql := pyLower query
    let afterTxt := txtFiles.foldl (fun acc f =>
      if pyIn ql (pyLower f.content) then
        let ms := searchLines ql (pySplitLines f.content) max_results
        if ms.isEmpty then acc else acc ++ [⟨f.name, "text", ms.take max_results⟩]
      else acc) []
    let allResults := pdfFiles.foldl (fun acc f =>
      if pyStartsWith f.extracted "Error:" then acc
      else if pyIn ql (pyLower f.extracted) then
        let ms := searchLines ql (pySplitLines f.extracted) max_results
        if ms.isEmpty then acc else acc ++ [⟨f.name, "pdf", ms.take max_results⟩]
      else acc) afterTxt
    SearchOutcome.found (allResults.take max_results) query allResults.length

/-! ### The persistence layer  (models.py)

`Conversation` and `Message` rows, with timestamps as abstract `Nat` clock
values.  `Meta.ordering` of `Message` is `["created_at"]` (ascending) and of
`Conversation` is `["-updated_at"]` (descending); the default query order
sorts by these keys, Django's ORM sort being stable on equal keys. -/

structure ConversationRow where
  id : Nat
  title : String
  created_at : Nat
  updated_at : Nat

structure MessageRow where
  id : Nat
  conversation : Nat
  role : String
  content : String
  tool_calls : Option Json
  created_at : Nat

/-- `Message.Meta.ordering = ["created_at"]` (models.py:32). -/
def messageOrdering : List String := ["created_at"]

/-- `Conversation.Meta.ordering = ["-updated_at"]` (models.py:12). -/
def conversationOrdering : List String := ["-updated_at"]

/-- The default queryset order of a conversation's messages: ascending by
`created_at`. -/
def defaultMessagesQuery (rows : List MessageRow) : List MessageRow :=
  rows.mergeSort (fun a b => decide (a.created_at ≤ b.created_at))

/-- The default queryset order of `Conversation.objects.all()`: descending by
`updated_at` (most recently updated first). -/
def defaultConversationsQuery (rows : List ConversationRow) : List ConversationRow :=
  rows.mergeSort (fun a b => decide (b.updated_at ≤ a.updated_at))

/-! ### The `send_message` view  (views.py:46-114)

The database is the two tables; `now` models the `auto_now`/`auto_now_add`
timestamps of the request, `newMsgId` the next primary key.  The MCP client
call is an oracle from the user message and history to the value
`await mcp_client.send_message(...)` returns (`none` models the `None` that
the conversation loop produces when its iteration cap is exhausted, on which
`result["response"]` raises and the `except` branch answers with status
500). -/

structure Db where
  conversations : List ConversationRow
  messages : List MessageRow

inductive ViewResponse where
  | json (body : Json) (status : Nat)
  | notFound

/-- Serialization of `tool_calls_made` into the `Message.tool_calls` JSON
field and the response body. -/
def toolCallsToJson (calls : List ToolCall) : Json :=
  Json.arr (calls.map fun c =>
    Json.obj [("tools", Json.str c.tools), ("input", c.input), ("result", c.result)])

/-- Title truncation of views.py:97-99. -/
def truncTitle (user_message : String) : String :=
  if 50 < user_message.length then String.mk (user_message.data.take 50) ++ "..."
  else user_message

/-- The history rebuild of views.py:74-77: all but the just-saved message,
keeping only user/assistant rows. -/
def historyOf (rows : List MessageRow) : List ChatMessage :=
  rows.dropLast.foldl (fun acc m =>
    if m.role = "user" ∨ m.role = "assistant"
    then acc ++ [ChatMessage.mk m.role (MsgContent.ofString m.content)] else acc) []

/-- The `send_message` view (views.py:46-114). -/
def sendMessageView (db : Db) (postMessage : Option String) (sessionConvId : Option Nat)
    (mcp : String → List ChatMessage → Option SendResult) (now : Nat) (newMsgId : Nat) :
    ViewResponse × Db :=
  let user_message := pyStrip (postMessage.getD "")
  if user_message = "" then
    (ViewResponse.json (Json.obj [("error", Json.str "Empty message")]) 400, db)
  else
    match sessionConvId.bind (fun cid => db.conversations.find? (fun c => c.id == cid)) with
    | none => (ViewResponse.notFound, db)
    | some conv =>
      let userRow : MessageRow := ⟨newMsgId, conv.id, "user", user_message, none, now⟩
      let db1 : Db := ⟨db.conversations, db.messages ++ [userRow]⟩
      let convMsgs := defaultMessagesQuery (db1.messages.filter (fun m => m.conversation == conv.id))
      match mcp user_message (historyOf convMsgs) with
      | none =>
        (ViewResponse.json (Json.obj
          [("error", Json.str "Error processing message: 'NoneType' object is not subscriptable")]) 500, db1)
      | some r =>
        let assistantRow : MessageRow :=
          ⟨newMsgId + 1, conv.id, "assistant", r.response,
           (if r.tool_calls.isEmpty then none else some (toolCallsToJson r.tool_calls)), now⟩
        let db2 : Db := ⟨db1.conversations, db1.messages ++ [assistantRow]⟩
        let db3 : Db :=
          if (db2.messages.filter (fun m => m.conversation == conv.id)).length = 2 then
            ⟨db2.conversations.map (fun c =>
              if c.id == conv.id then ⟨c.id, truncTitle user_message, c.created_at, now⟩ else c),
             db2.messages⟩
          else db2
        (ViewResponse.json (Json.obj
          [("user_message", Json.str user_message),
           ("assistant_response", Json.str r.response),
           ("tool_calls", toolCallsToJson r.tool_calls)]) 200, db3)

/-! ### Concrete inputs and specification-side predicates used by the
theorems below -/

/-- A model oracle that requests tool use on every call: the response has
`stop_reason = "tool_use"` and one `tool_use` block. -/
def alwaysToolUse : List ChatMessage → Response :=
  fun _ => ⟨"tool_use", [ContentBlock.toolUse "toolu_01" "get_weather" (Json.obj [])]⟩

/-- A 501-character extraction result (past the 500-character success
threshold). -/
def longA : String := String.mk (List.replicate 501 'a')

/-- A 502-character extraction result, longer than `longA`. -/
def longB : String := String.mk (List.replicate 502 'b')

/-- A text file contributes a search result entry iff the lowercased query
occurs in its lowercased content and in at least one single line of it. -/
def txtFileContributes (ql : String) (f : TxtFile) : Bool :=
  pyIn ql (pyLower f.content) && (pySplitLines f.content).any (fun l => pyIn ql (pyLower l))

/-- A PDF file contributes a search result entry iff its extraction did not
produce an error string, and the lowercased query occurs in the lowercased
extracted content and in at least one single line of it. -/
def pdfFileContributes (ql : String) (f : PdfFile) : Bool :=
  !pyStartsWith f.extracted "Error:"
    && (pyIn ql (pyLower f.extracted) && (pySplitLines f.extracted).any (fun l => pyIn ql (pyLower l)))

/-- The result entry built for a contributing text file. -/
def txtEntry (ql : String) (max_results : Nat) (f : TxtFile) : FileEntry :=
  ⟨f.name, "text", (searchLines ql (pySplitLines f.content) max_results).take max_results⟩

/-- The result entry built for a contributing PDF file. -/
def pdfEntry (ql : String) (max_results : Nat) (f : PdfFile) : FileEntry :=
  ⟨f.name, "pdf", (searchLines ql (pySplitLines f.extracted) max_results).take max_results⟩

/-! ## Theorems -/

/-- Folding an accumulate-if body over a list appends exactly the images of
the elements passing the test, in order. -/
theorem foldl_append_if {α β : Type} (p : α → Bool) (f : α → β) (xs : List α) :
    ∀ acc : List β,
      xs.foldl (fun a x => if p x then a ++ [f x] else a) acc
        = acc ++ (xs.filter p).map f := by
  induction xs with
  | nil => intro acc; simp
  | cons x xs ih =>
    intro acc
    by_cases h : p x <;> simp [List.filter_cons, h, ih]

/-- Folding an unconditional append body over a list appends the images of
all elements, in order. -/
theorem foldl_append_map {α β : Type} (f : α → β) (xs : List α) :
    ∀ acc : List β, xs.foldl (fun a x => a ++ [f x]) acc = acc ++ xs.map f := by
  induction xs with
  | nil => intro acc; simp
  | cons x xs ih => intro acc; simp [ih]

/-- The nested resource-aggregation fold, with an arbitrary starting
accumulator. -/
theorem getAllResources_aux (servers : List (String × ServerModel)) :
    ∀ acc : List TaggedResource,
      servers.foldl (fun acc p =>
          p.2.resources.foldl (fun acc2 r =>
            if resourceNameMatches r then acc2 ++ [⟨r, p.1⟩] else acc2) acc) acc
        = acc ++ servers.flatMap (fun p =>
            (p.2.resources.filter resourceNameMatches).map (fun r => ⟨r, p.1⟩)) := by
  induction servers with
  | nil => intro acc; simp
  | cons s rest ih =>
    intro acc
    simp only [List.foldl_cons, List.flatMap_cons]
    rw [foldl_append_if, ih, List.append_assoc]

/-- C9: `get_all_resources` returns exactly the resources, across all
registered servers, whose name contains "freeswitch" or "sip"
case-insensitively, each tagged with its owning server; every other
resource is excluded. -/
theorem getAllResources_spec (servers : List (String × ServerModel)) :
    getAllResources servers
      = servers.flatMap (fun p =>
          (p.2.resources.filter resourceNameMatches).map (fun r => ⟨r, p.1⟩)) := by
  unfold getAllResources
  simpa using getAllResources_aux servers []

/-- The imperative scan of mcp_client.py:202-206 finds the first tool
definition with the requested name and yields its server tag. -/
theorem findServerName_eq_find (tools : List Tool) (n : String) :
    findServerName tools n = (tools.find? (fun t => t.name == n)).map Tool.server := by
  induction tools with
  | nil => rfl
  | cons t rest ih =>
    by_cases h : t.name = n
    · simp [findServerName, h]
    · simp [findServerName, h, ih]

/-- C3: each tool call is routed via a linear scan to the `_server` of the
first tool definition whose name equals the requested name; with no match
the result is the dict `{"error": "Tool <name> not found"}` (also when the
matched tag is the falsy empty string), and with a matching tool whose
server is not registered, `handle_tool_call` returns
`{"error": "Unknown server: <name>"}`; every case yields a value, no
exception escapes. -/
theorem routeToolCall_spec (tools : List Tool) (servers : List (String × ServerModel))
    (name : String) (input : Json) :
    routeToolCall tools servers name input
      = match tools.find? (fun t => t.name == name) with
        | none => Json.obj [("error", Json.str ("Tool " ++ name ++ " not found"))]
        | some t =>
          if t.server = "" then
            Json.obj [("error", Json.str ("Tool " ++ name ++ " not found"))]
          else
            match dictGet servers t.server with
            | none => Json.obj [("error", Json.str ("Unknown server: " ++ t.server))]
            | some srv => srv.callTool name input := by
  unfold routeToolCall
  rw [findServerName_eq_find]
  cases h : tools.find? (fun t => t.name == name) with
  | none => rfl
  | some t =>
    simp only [Option.map_some']
    by_cases hs : t.server = ""
    · simp [hs, toolNotFoundError]
    · simp only [if_neg hs, handleToolCall]

/-- C4: for the `tool_use` blocks of a model response, the loop builds one
`tool_calls_made` record and one `tool_result` entry per block, in block
order; each `tool_result` carries the `tool_use_id` of its block and the
`json.dumps` serialization of the routed result as content (this pair is
what mcp_client.py:217-231 appends, the second component becoming the next
user message's content). -/
theorem processBlocks_spec (tools : List Tool) (servers : List (String × ServerModel))
    (blocks : List ContentBlock) :
    (processBlocks tools servers blocks).1
        = blocks.filterMap (fun b =>
            match b with
            | ContentBlock.text _ => none
            | ContentBlock.toolUse _ nm inp =>
                some ⟨nm, inp, routeToolCall tools servers nm inp⟩)
      ∧ (processBlocks tools servers blocks).2
        = blocks.filterMap (fun b =>
            match b with
            | ContentBlock.text _ => none
            | ContentBlock.toolUse id nm inp =>
                some ⟨"tool_result", id, dumps (routeToolCall tools servers nm inp)⟩) := by
  induction blocks with
  | nil => exact ⟨rfl, rfl⟩
  | cons b rest ih =>
    cases b with
    | text s => simpa [processBlocks] using ih
    | toolUse id nm inp => simp [processBlocks, ih.1, ih.2]

/-- Per-run bound of the conversation loop: the number of model API calls is
at most the remaining iteration budget, is positive when the budget is, and
equals the budget exactly when the loop exhausts it (result `none`). -/
theorem sendMessageLoop_bound (model : List ChatMessage → Response) (tools : List Tool)
    (servers : List (String × ServerModel)) :
    ∀ (fuel : Nat) (messages : List ChatMessage) (calls : List ToolCall),
      (sendMessageLoop model tools servers fuel messages calls).2 ≤ fuel
      ∧ (0 < fuel → 0 < (sendMessageLoop model tools servers fuel messages calls).2)
      ∧ ((sendMessageLoop model tools servers fuel messages calls).1 = none →
          (sendMessageLoop model tools servers fuel messages calls).2 = fuel) := by
  intro fuel
  induction fuel with
  | zero => intro messages calls; simp [sendMessageLoop]
  | succ n ih =>
    intro messages calls
    simp only [sendMessageLoop]
    by_cases h : (model messages).stop_reason = "tool_use"
    · simp only [if_pos h]
      have hrec := ih (messages ++ [ChatMessage.mk "assistant" (MsgContent.ofBlocks (model messages).content)]
          ++ [ChatMessage.mk "user" (MsgContent.ofToolResults
              (processBlocks tools servers (model messages).content).2)])
        (calls ++ (processBlocks tools servers (model messages).content).1)
      refine ⟨?_, ?_, ?_⟩
      · simpa using Nat.succ_le_succ hrec.1
      · intro _; simp
      · intro hnone
        exact congrArg Nat.succ (hrec.2.2 hnone)
    · simp [if_neg h]

/-- C1: for every model oracle, server registry, user message and history,
`send_message` makes at least one and at most `max_iterations = 5` model API
calls, and exits either by returning a result (stop reason other than
`"tool_use"`) or by exhausting the 5-iteration cap. -/
theorem sendMessage_bounded_loop (model : List ChatMessage → Response)
    (servers : List (String × ServerModel)) (user_message : String)
    (conversation_history : List ChatMessage) :
    (sendMessageAux model servers user_message conversation_history).2 ≤ maxIterations
    ∧ 0 < (sendMessageAux model servers user_message conversation_history).2
    ∧ ((sendMessageAux model servers user_message conversation_history).1.isSome
        ∨ (sendMessageAux model servers user_message conversation_history).2 = maxIterations) := by
  have h := sendMessageLoop_bound model (getAllTools servers) servers maxIterations
    (conversation_history ++ [ChatMessage.mk "user" (MsgContent.ofString user_message)]) []
  refine ⟨h.1, h.2.1 (by simp [maxIterations]), ?_⟩
  cases hres : (sendMessageAux model servers user_message conversation_history).1 with
  | some r => exact Or.inl (by simp [hres])
  | none =>
    refine Or.inr (h.2.2 ?_)
    simpa [sendMessageAux] using hres

/-- C2 (code bug witness): against a model that requests tool use on every
call, the loop exhausts its 5-iteration cap and the Python coroutine falls
off the `while` loop, implicitly returning `None` (`none`) instead of the
documented result dict, after exactly 5 model API calls. -/
theorem sendMessage_cap_exhausted_returns_none :
    sendMessage alwaysToolUse [] "What is the weather in Nairobi?" [] = none
    ∧ (sendMessageAux alwaysToolUse [] "What is the weather in Nairobi?" []).2 = 5 :=
  ⟨rfl, rfl⟩

/-- A string is non-empty exactly when its length is positive. -/
theorem string_length_pos_iff (s : String) : 0 < s.length ↔ s ≠ "" := by
  cases s with
  | mk data =>
    cases data with
    | nil => simp [String.length]
    | cons c cs =>
      constructor
      · intro _ h
        exact absurd (congrArg String.data h) (by simp)
      · intro _
        simp [String.length]

/-- The stable longest-first pick over the three method results: its text is
one of the three and its length dominates all of them. -/
theorem bestResult_three (t1 t2 t3 s1 s2 s3 : String) :
    (bestResult [(t1, s1), (t2, s2), (t3, s3)]).1 ∈ [t1, t2, t3]
    ∧ t1.length ≤ (bestResult [(t1, s1), (t2, s2), (t3, s3)]).1.length
    ∧ t2.length ≤ (bestResult [(t1, s1), (t2, s2), (t3, s3)]).1.length
    ∧ t3.length ≤ (bestResult [(t1, s1), (t2, s2), (t3, s3)]).1.length := by
  simp only [bestResult]
  by_cases c23 : t2.length < t3.length
  · by_cases c1 : t1.length < t3.length
    · simp only [if_pos c23, if_pos c1]
      refine ⟨by simp, by omega, by omega, by omega⟩
    · simp only [if_pos c23, if_neg c1]
      refine ⟨by simp, by omega, by omega, by omega⟩
  · by_cases c1 : t1.length < t2.length
    · simp only [if_neg c23, if_pos c1]
      refine ⟨by simp, by omega, by omega, by omega⟩
    · simp only [if_neg c23, if_neg c1]
      refine ⟨by simp, by omega, by omega, by omega⟩

set_option maxRecDepth 100000 in
/-- C5 counterexample: when pdftotext yields 501 characters (past the
success threshold) and pypdf would yield 502, `_extract_pdf_text` returns
the pdftotext result — not the longest non-empty result among the methods. -/
theorem extractPdfText_not_longest_cex :
    extractPdfText true "Valid PDF header" false longA longB "" = longA
    ∧ longA.length < longB.length ∧ longA ≠ longB ∧ longB ≠ "" :=
  ⟨rfl, by decide, by decide, by decide⟩

/-- C5 (amended): the fallback chain tries pdftotext, then pypdf, then
pdfplumber, returning the first result longer than 500 characters; when no
method exceeds 500 characters it picks the longest non-empty result among
the three (earliest on ties), and when every method yields an empty result
it returns the fixed error message instead of extracted text. -/
theorem extractPdfText_fallback_spec (valid repairOk : Bool) (validationMsg t1 t2 t3 : String)
    (h : valid = true ∨ repairOk = true) :
    (500 < t1.length → extractPdfText valid validationMsg repairOk t1 t2 t3 = t1)
    ∧ (t1.length ≤ 500 → 500 < t2.length →
        extractPdfText valid validationMsg repairOk t1 t2 t3 = t2)
    ∧ (t1.length ≤ 500 → t2.length ≤ 500 → 500 < t3.length →
        extractPdfText valid validationMsg repairOk t1 t2 t3 = t3)
    ∧ (t1.length ≤ 500 → t2.length ≤ 500 → t3.length ≤ 500 →
        (t1 ≠ "" ∨ t2 ≠ "" ∨ t3 ≠ "") →
        extractPdfText valid validationMsg repairOk t1 t2 t3 ∈ [t1, t2, t3]
        ∧ extractPdfText valid validationMsg repairOk t1 t2 t3 ≠ ""
        ∧ t1.length ≤ (extractPdfText valid validationMsg repairOk t1 t2 t3).length
        ∧ t2.length ≤ (extractPdfText valid validationMsg repairOk t1 t2 t3).length
        ∧ t3.length ≤ (extractPdfText valid validationMsg repairOk t1 t2 t3).length)
    ∧ (t1 = "" → t2 = "" → t3 = "" →
        extractPdfText valid validationMsg repairOk t1 t2 t3 = errorAllFailedMsg) := by
  have hvr : (!valid && !repairOk) = false := by
    rcases h with h | h <;> subst h <;> simp
  unfold extractPdfText
  simp only [hvr, Bool.false_eq_true, if_false]
  refine ⟨?_, ?_, ?_, ?_, ?_⟩
  · intro h1; rw [if_pos h1]
  · intro h1 h2; rw [if_neg (by omega), if_pos h2]
  · intro h1 h2 h3; rw [if_neg (by omega), if_neg (by omega), if_pos h3]
  · intro h1 h2 h3 hne
    rw [if_neg (by omega), if_neg (by omega), if_neg (by omega)]
    have hb := bestResult_three t1 t2 t3 "pdftotext" "pypdf" "pdfplumber"
    have hpos : 0 < (bestResult [(t1, "pdftotext"), (t2, "pypdf"), (t3, "pdfplumber")]).1.length := by
      rcases hne with hne | hne | hne
      · exact Nat.lt_of_lt_of_le ((string_length_pos_iff t1).2 hne) hb.2.1
      · exact Nat.lt_of_lt_of_le ((string_length_pos_iff t2).2 hne) hb.2.2.1
      · exact Nat.lt_of_lt_of_le ((string_length_pos_iff t3).2 hne) hb.2.2.2
    rw [if_pos hpos]
    exact ⟨hb.1, (string_length_pos_iff _).1 hpos, hb.2.1, hb.2.2.1, hb.2.2.2⟩
  · intro e1 e2 e3
    subst e1; subst e2; subst e3
    rfl

/-- C5 amended-claim witness: with results `""`, `"ab"`, `""` (none past the
threshold, not all empty) the chain returns the longest non-empty result. -/
theorem extractPdfText_fallback_spec_witness :
    extractPdfText true "Valid PDF header" false "" "ab" "" = "ab" := by
  have h := (extractPdfText_fallback_spec true false "Valid PDF header" "" "ab" ""
      (Or.inl rfl)).2.2.2.1
    (by decide) (by decide) (by decide) (Or.inr (Or.inl (by decide)))
  obtain ⟨hmem, hne, -⟩ := h
  simp only [List.mem_cons, List.not_mem_nil, or_false] at hmem
  rcases hmem with h1 | h2 | h3
  · exact absurd h1 hne
  · exact h2
  · exact absurd h3 hne

/-- C7: each of the six supported SIP message types yields its fixed
non-empty canned example beginning with the method name; any other string
yields "No example available for <message_type>" (no exception). -/
theorem getSipExample_spec :
    (∀ mt : String,
        mt ∉ ["INVITE", "REGISTER", "BYE", "CANCEL", "ACK", "OPTIONS"] →
        getSipExample mt = "No example available for " ++ mt)
    ∧ ∀ mt ∈ ["INVITE", "REGISTER", "BYE", "CANCEL", "ACK", "OPTIONS"],
        getSipExample mt ≠ "" ∧ pyStartsWith (getSipExample mt) mt = true := by
  constructor
  · intro mt h
    simp only [List.mem_cons, List.not_mem_nil, or_false, not_or] at h
    obtain ⟨h1, h2, h3, h4, h5, h6⟩ := h
    simp [getSipExample, dictGet, sipExamples, h1, h2, h3, h4, h5, h6]
  · intro mt h
    simp only [List.mem_cons, List.not_mem_nil, or_false] at h
    rcases h with rfl | rfl | rfl | rfl | rfl | rfl
    all_goals exact ⟨by decide, by decide⟩

/-- C7 witness: an unsupported type gets the fallback text, and the INVITE
example begins with "INVITE". -/
theorem getSipExample_spec_witness :
    getSipExample "SUBSCRIBE" = "No example available for SUBSCRIBE"
    ∧ pyStartsWith (getSipExample "INVITE") "INVITE" = true :=
  ⟨getSipExample_spec.1 "SUBSCRIBE" (by decide),
   (getSipExample_spec.2 "INVITE" (by decide)).2⟩

/-- C8: the default query order of a conversation's messages is ascending by
creation time (and is a permutation of the rows, so the transcript is
replayed in recorded order), and conversations are listed most recently
updated first. -/
theorem defaultOrdering_spec (msgs : List MessageRow) (convs : List ConversationRow) :
    List.Sorted (fun a b => a.created_at ≤ b.created_at) (defaultMessagesQuery msgs)
    ∧ (defaultMessagesQuery msgs).Perm msgs
    ∧ List.Sorted (fun a b => b.updated_at ≤ a.updated_at) (defaultConversationsQuery convs)
    ∧ (defaultConversationsQuery convs).Perm convs := by
  refine ⟨?_, List.mergeSort_perm _ _, ?_, List.mergeSort_perm _ _⟩
  · have h := @List.sorted_mergeSort MessageRow
      (fun a b => decide (a.created_at ≤ b.created_at))
      (fun a b c hab hbc => by simp only [decide_eq_true_eq] at *; omega)
      (fun a b => by simpa using Nat.le_total a.created_at b.created_at)
      msgs
    exact List.Pairwise.imp (fun hab => by simpa using hab) h
  · have h := @List.sorted_mergeSort ConversationRow
      (fun a b => decide (b.updated_at ≤ a.updated_at))
      (fun a b c hab hbc => by simp only [decide_eq_true_eq] at *; omega)
      (fun a b => by simpa using Nat.le_total b.updated_at a.updated_at)
      convs
    exact List.Pairwise.imp (fun hab => by simpa using hab) h

/-- C10: a POST whose message field strips to the empty string gets the JSON
error body `{"error": "Empty message"}` with status 400, and the database —
conversations and message rows — is returned unchanged: the check precedes
every write. -/
theorem sendMessageView_empty_message (db : Db) (postMessage : Option String)
    (sessionConvId : Option Nat) (mcp : String → List ChatMessage → Option SendResult)
    (now newMsgId : Nat) (h : pyStrip (postMessage.getD "") = "") :
    sendMessageView db postMessage sessionConvId mcp now newMsgId
      = (ViewResponse.json (Json.obj [("error", Json.str "Empty message")]) 400, db) := by
  unfold sendMessageView
  simp only [h, if_pos]

/-- C10 witness: a whitespace-only message is rejected with status 400 and
an unchanged database. -/
theorem sendMessageView_empty_message_witness :
    sendMessageView ⟨[], []⟩ (some "   ") none (fun _ _ => none) 0 0
      = (ViewResponse.json (Json.obj [("error", Json.str "Empty message")]) 400, ⟨[], []⟩) :=
  sendMessageView_empty_message ⟨[], []⟩ (some "   ") none (fun _ _ => none) 0 0 (by decide)

/-- The per-line match loop only ever appends to its accumulator. -/
theorem searchLinesAux_extends (ql : String) (allLines : List String) (m : Nat) :
    ∀ (rest : List String) (i : Nat) (acc : List String),
      ∃ extra, searchLinesAux ql allLines m rest i acc = acc ++ extra := by
  intro rest
  induction rest with
  | nil => intro i acc; exact ⟨[], by simp [searchLinesAux]⟩
  | cons line rest ih =>
    intro i acc
    simp only [searchLinesAux]
    by_cases hm : pyIn ql (pyLower line) = true
    · rw [if_pos hm]
      by_cases hb : m ≤ (acc ++ [contextAround allLines i]).length
      · exact ⟨[contextAround allLines i], by rw [if_pos hb]⟩
      · obtain ⟨extra, hex⟩ := ih (i + 1) (acc ++ [contextAround allLines i])
        exact ⟨[contextAround allLines i] ++ extra, by rw [if_neg hb, hex, List.append_assoc]⟩
    · rw [if_neg hm]
      exact ih (i + 1) acc

/-- With no matching line the per-line loop returns its accumulator. -/
theorem searchLinesAux_no_match (ql : String) (allLines : List String) (m : Nat) :
    ∀ (rest : List String) (i : Nat) (acc : List String),
      (∀ l ∈ rest, pyIn ql (pyLower l) = false) →
      searchLinesAux ql allLines m rest i acc = acc := by
  intro rest
  induction rest with
  | nil => intro i acc _; simp [searchLinesAux]
  | cons line rest ih =>
    intro i acc h
    have hline : pyIn ql (pyLower line) = false := h line (by simp)
    simp only [searchLinesAux, hline, Bool.false_eq_true, if_false]
    exact ih (i + 1) acc (fun l hl => h l (by simp [hl]))

/-- With some matching line the per-line loop returns a non-empty list. -/
theorem searchLinesAux_of_match (ql : String) (allLines : List String) (m : Nat) :
    ∀ (rest : List String) (i : Nat) (acc : List String),
      (∃ l ∈ rest, pyIn ql (pyLower l) = true) →
      searchLinesAux ql allLines m rest i acc ≠ [] := by
  intro rest
  induction rest with
  | nil => intro i acc h; simp at h
  | cons line rest ih =>
    intro i acc h
    simp only [searchLinesAux]
    by_cases hm : pyIn ql (pyLower line) = true
    · rw [if_pos hm]
      by_cases hb : m ≤ (acc ++ [contextAround allLines i]).length
      · rw [if_pos hb]; simp
      · rw [if_neg hb]
        obtain ⟨extra, hex⟩ := searchLinesAux_extends ql allLines m rest (i + 1)
          (acc ++ [contextAround allLines i])
        rw [hex]; simp
    · rw [if_neg hm]
      rcases h with ⟨l, hl, hmatch⟩
      rcases List.mem_cons.1 hl with rfl | hl'
      · exact absurd hmatch hm
      · exact ih (i + 1) acc ⟨l, hl', hmatch⟩

/-- The collected matches of a file are empty exactly when no single line of
the file contains the lowercased query. -/
theorem searchLines_eq_nil_iff (ql : String) (lines : List String) (m : Nat) :
    searchLines ql lines m = [] ↔ ∀ l ∈ lines, pyIn ql (pyLower l) = false := by
  constructor
  · intro h l hl
    by_contra hc
    have hT : pyIn ql (pyLower l) = true := by
      revert hc; cases pyIn ql (pyLower l) <;> simp
    exact searchLinesAux_of_match ql lines m lines 0 [] ⟨l, hl, hT⟩ h
  · intro h
    exact searchLinesAux_no_match ql lines m lines 0 [] h

/-- The text-file scan of `_search_docs`, for an arbitrary accumulator:
it appends one entry per contributing text file, in order. -/
theorem searchDocs_txtFold (ql : String) (m : Nat) :
    ∀ (txt : List TxtFile) (acc : List FileEntry),
      txt.foldl (fun acc f =>
          if pyIn ql (pyLower f.content) then
            (if (searchLines ql (pySplitLines f.content) m).isEmpty then acc
             else acc ++ [⟨f.name, "text", (searchLines ql (pySplitLines f.content) m).take m⟩])
          else acc) acc
        = acc ++ (txt.filter (txtFileContributes ql)).map (txtEntry ql m) := by
  intro txt
  induction txt with
  | nil => intro acc; simp
  | cons f rest ih =>
    intro acc
    rw [List.foldl_cons]
    by_cases h1 : pyIn ql (pyLower f.content) = true
    · by_cases h2 : (searchLines ql (pySplitLines f.content) m).isEmpty = true
      · have hall := (searchLines_eq_nil_iff ql (pySplitLines f.content) m).1
          (List.isEmpty_iff.1 h2)
        have hc : txtFileContributes ql f = false := by
          unfold txtFileContributes
          have hany : (pySplitLines f.content).any (fun l => pyIn ql (pyLower l)) = false := by
            apply Bool.eq_false_iff.2
            intro hT
            obtain ⟨l, hl, hp⟩ := List.any_eq_true.1 hT
            rw [hall l hl] at hp
            exact Bool.false_ne_true hp
          rw [hany, Bool.and_false]
        rw [if_pos h1, if_pos h2, ih acc, List.filter_cons_of_neg (by simp [hc])]
      · have hex : ∃ l ∈ pySplitLines f.content, pyIn ql (pyLower l) = true := by
          by_contra hcon
          apply h2
          apply List.isEmpty_iff.2
          apply (searchLines_eq_nil_iff ql (pySplitLines f.content) m).2
          intro l hl
          have hnt : ¬pyIn ql (pyLower l) = true := fun hT => hcon ⟨l, hl, hT⟩
          rw [Bool.not_eq_true] at hnt
          exact hnt
        have hc : txtFileContributes ql f = true := by
          unfold txtFileContributes
          rw [h1, List.any_eq_true.2 hex, Bool.and_true]
        rw [if_pos h1, if_neg h2, ih, List.filter_cons_of_pos hc, List.map_cons,
          List.append_assoc]
        rfl
    · have h1f : pyIn ql (pyLower f.content) = false := by
        rw [← Bool.not_eq_true]; exact h1
      have hc : txtFileContributes ql f = false := by
        unfold txtFileContributes
        rw [h1f, Bool.false_and]
      rw [if_neg h1, ih acc, List.filter_cons_of_neg (by simp [hc])]

/-- The PDF scan of `_search_docs`, for an arbitrary accumulator: it skips
extraction errors and appends one entry per contributing PDF, in order. -/
theorem searchDocs_pdfFold (ql : String) (m : Nat) :
    ∀ (pdf : List PdfFile) (acc : List FileEntry),
      pdf.foldl (fun acc f =>
          if pyStartsWith f.extracted "Error:" then acc
          else if pyIn ql (pyLower f.extracted) then
            (if (searchLines ql (pySplitLines f.extracted) m).isEmpty then acc
             else acc ++ [⟨f.name, "pdf", (searchLines ql (pySplitLines f.extracted) m).take m⟩])
          else acc) acc
        = acc ++ (pdf.filter (pdfFileContributes ql)).map (pdfEntry ql m) := by
  intro pdf
  induction pdf with
  | nil => intro acc; simp
  | cons f rest ih =>
    intro acc
    rw [List.foldl_cons]
    by_cases h0 : pyStartsWith f.extracted "Error:" = true
    · have hc : pdfFileContributes ql f = false := by
        unfold pdfFileContributes
        rw [h0]
        rfl
      rw [if_pos h0, ih acc, List.filter_cons_of_neg (by simp [hc])]
    · have h0f : pyStartsWith f.extracted "Error:" = false := by
        rw [← Bool.not_eq_true]; exact h0
      by_cases h1 : pyIn ql (pyLower f.extracted) = true
      · by_cases h2 : (searchLines ql (pySplitLines f.extracted) m).isEmpty = true
        · have hall := (searchLines_eq_nil_iff ql (pySplitLines f.extracted) m).1
            (List.isEmpty_iff.1 h2)
          have hc : pdfFileContributes ql f = false := by
            unfold pdfFileContributes
            have hany : (pySplitLines f.extracted).any (fun l => pyIn ql (pyLower l)) = false := by
              apply Bool.eq_false_iff.2
              intro hT
              obtain ⟨l, hl, hp⟩ := List.any_eq_true.1 hT
              rw [hall l hl] at hp
              exact Bool.false_ne_true hp
            rw [hany, Bool.and_false, Bool.and_false]
          rw [if_neg h0, if_pos h1, if_pos h2, ih acc,
            List.filter_cons_of_neg (by simp [hc])]
        · have hex : ∃ l ∈ pySplitLines f.extracted, pyIn ql (pyLower l) = true := by
            by_contra hcon
            apply h2
            apply List.isEmpty_iff.2
            apply (searchLines_eq_nil_iff ql (pySplitLines f.extracted) m).2
            intro l hl
            have hnt : ¬pyIn ql (pyLower l) = true := fun hT => hcon ⟨l, hl, hT⟩
            rw [Bool.not_eq_true] at hnt
            exact hnt
          have hc : pdfFileContributes ql f = true := by
            unfold pdfFileContributes
            rw [h0f, h1, List.any_eq_true.2 hex, Bool.and_true, Bool.not_false, Bool.true_and]
          rw [if_neg h0, if_pos h1, if_neg h2, ih, List.filter_cons_of_pos hc,
            List.map_cons, List.append_assoc]
          rfl
      · have h1f : pyIn ql (pyLower f.extracted) = false := by
          rw [← Bool.not_eq_true]; exact h1
        have hc : pdfFileContributes ql f = false := by
          unfold pdfFileContributes
          rw [h1f, Bool.false_and, Bool.and_false]
        rw [if_neg h0, if_neg h1, ih acc, List.filter_cons_of_neg (by simp [hc])]

/-- C6 counterexample: a query spanning two lines occurs case-insensitively
in a text file's content, yet `_search_docs` reports no result for the file
and `total_found = 0` — the per-line match loop finds no single line
containing it. -/
theorem searchDocs_multiline_query_cex :
    pyIn (pyLower "a\nb") (pyLower "xa\nby") = true
    ∧ searchDocs true "/tmp/voip_docs" [⟨"doc.txt", "xa\nby"⟩] [] "a\nb" 3
        = SearchOutcome.found [] "a\nb" 0 :=
  ⟨rfl, rfl⟩

/-- C6 (amended): with the documentation directory present, a file
contributes a result entry iff (for PDFs) its extraction did not return an
error string and the lowercased query occurs in its lowercased content and
in at least one single line of it; each entry carries at most `max_results`
context excerpts, the `results` list is truncated to `max_results` entries,
and `total_found` counts all contributing files. -/
theorem searchDocs_spec (docsDir q : String) (m : Nat) (txt : List TxtFile)
    (pdf : List PdfFile) :
    ∃ all : List FileEntry,
      searchDocs true docsDir txt pdf q m = SearchOutcome.found (all.take m) q all.length
      ∧ all = (txt.filter (txtFileContributes (pyLower q))).map (txtEntry (pyLower q) m)
            ++ (pdf.filter (pdfFileContributes (pyLower q))).map (pdfEntry (pyLower q) m)
      ∧ (all.take m).length ≤ m
      ∧ ∀ e ∈ all, e.excerpts.length ≤ m := by
  refine ⟨(txt.filter (txtFileContributes (pyLower q))).map (txtEntry (pyLower q) m)
      ++ (pdf.filter (pdfFileContributes (pyLower q))).map (pdfEntry (pyLower q) m),
    ?_, rfl, ?_, ?_⟩
  · unfold searchDocs
    simp only [Bool.not_true, Bool.false_eq_true, if_false]
    rw [searchDocs_txtFold (pyLower q) m txt, searchDocs_pdfFold (pyLower q) m pdf]
    simp
  · rw [List.length_take]
    omega
  · intro e he
    simp only [List.mem_append, List.mem_map] at he
    rcases he with ⟨f, _, rfl⟩ | ⟨f, _, rfl⟩
    · simp [txtEntry, List.length_take]
    · simp [pdfEntry, List.length_take]

end McpChat
